import Mathlib

/-!
Verification development for the AI script agent repository
(`src/v1/ai_script_agent_learning.py`, `src/v1/ai_script_agent_whisper.py`,
`src/v2/ai_script_agent_learning.py`).

The core of the program is the learning/caching loop of the
`ScriptLearningAgent` class: a SQLite-backed append-only log of
(command, script, outcome) attempts, an exact-string retrieval policy
selecting the most recent successful attempt, prompt-driven script
generation with post-processing, execution via `osascript`, and an
optional human verification step.

External collaborators (the OpenAI API, the `osascript` process, and
the interactive `input()` calls) are modelled as explicit inputs to the
functions that consume them; the SQLite table is modelled as a list of
rows in insertion order, with `timestamp` (the `CURRENT_TIMESTAMP`
column default) supplied by an explicit clock value.
-/

namespace ScriptAgent

/-! ### Python string primitives used by the source -/

/-- The characters Python's `str.strip()` removes (Python whitespace). -/
def isPyWs (c : Char) : Bool :=
  c = ' ' || c = '\t' || c = '\n' || c = '\r' || c = '\x0b' || c = '\x0c'

/-- Python `str.strip()` on a character list: drop leading and trailing
whitespace. -/
def pyStripList (s : List Char) : List Char :=
  ((s.dropWhile isPyWs).reverse.dropWhile isPyWs).reverse

/-- Python `str.strip()`. -/
def pyStrip (s : String) : String :=
  String.mk (pyStripList s.toList)

/-- Python `str.lower()` (the source only compares ASCII answers such as
`"yes"`/`"y"`, where `Char.toLower` agrees with Python). -/
def pyLower (s : String) : String :=
  String.mk (s.toList.map Char.toLower)

/-- Test whether `s` begins with the pattern `pat`. -/
def headMatches : List Char → List Char → Bool
  | [], _ => true
  | _ :: _, [] => false
  | p :: ps, c :: cs => p = c && headMatches ps cs

/-- Decide whether the pattern `pat` occurs as a contiguous substring
of `s` (Python's `pat in s`). -/
def occursIn (pat : List Char) : List Char → Bool
  | [] => headMatches pat []
  | c :: rest => headMatches pat (c :: rest) || occursIn pat rest

lemma headMatches_length {pat s : List Char} (h : headMatches pat s = true) :
    pat.length ≤ s.length := by
  induction pat generalizing s with
  | nil => simp
  | cons p ps ih =>
    cases s with
    | nil => simp [headMatches] at h
    | cons c cs =>
      simp only [headMatches, Bool.and_eq_true] at h
      simpa using ih h.2

/-- Python `str.replace(pat, rep)` on character lists: scan left to
right, replacing non-overlapping occurrences.  (The source only calls
this with non-empty patterns; for the empty pattern this model is the
identity.) -/
def pyReplaceList (pat rep : List Char) : List Char → List Char
  | [] => []
  | c :: rest =>
    if h : pat ≠ [] ∧ headMatches pat (c :: rest) = true then
      rep ++ pyReplaceList pat rep ((c :: rest).drop pat.length)
    else
      c :: pyReplaceList pat rep rest
termination_by s => s.length
decreasing_by
  · have hlen : pat.length ≤ (c :: rest).length := headMatches_length h.2
    have hpos : 0 < pat.length := List.length_pos.mpr h.1
    simp only [List.length_drop, List.length_cons]
    omega
  · simp

/-- Python `str.replace`. -/
def pyReplace (s pat rep : String) : String :=
  String.mk (pyReplaceList pat.toList rep.toList s.toList)

/-! ### Data model: one row of the `solutions` table

Column names follow the v2 schema (`setup_database`,
`src/v2/ai_script_agent_learning.py:35-49`); `timestamp` is the
`DATETIME DEFAULT CURRENT_TIMESTAMP` column, modelled as a `Nat` clock
reading, and `id` is the `INTEGER PRIMARY KEY AUTOINCREMENT` column.
`verified_success` is the nullable boolean (`none` encodes SQL NULL /
"unknown"). -/

structure Attempt where
  id : Nat
  command : String
  applescript : String
  success : Bool
  verified_success : Option Bool
  error_message : Option String
  feedback : Option String
  timestamp : Nat
deriving DecidableEq, Repr

/-- Model of `setup_database` (`CREATE TABLE IF NOT EXISTS solutions ...`):
`none` models a database file in which the table does not exist yet,
`some rows` an existing table with its rows.  Creating the table when
absent yields an empty table; an existing table is left untouched. -/
def setup_database : Option (List Attempt) → Option (List Attempt)
  | none => some []
  | some rows => some rows

/-- The WHERE clause of v2 `find_successful_solution`
(`src/v2/ai_script_agent_learning.py:54-60`):
`command = ? AND success = 1 AND (verified_success = 1 OR verified_success IS NULL)`. -/
def qualifiesV2 (command : String) (a : Attempt) : Bool :=
  a.command = command && a.success &&
    (a.verified_success = some true || a.verified_success = none)

/-- The WHERE clause of v1 `find_successful_solution`
(`src/v1/ai_script_agent_learning.py:50-54`): `command = ? AND success = 1`
(the v1 schema has no verification column, so the row predicate ignores
it). -/
def qualifiesV1 (command : String) (a : Attempt) : Bool :=
  a.command = command && a.success

/-- Model of `ORDER BY timestamp DESC LIMIT 1` over a row list: a row with the
greatest `timestamp` (ties broken toward later rows; SQLite leaves the
tie order unspecified, and theorems that depend on order assume distinct
timestamps). -/
def pickLatest : List Attempt → Option Attempt
  | [] => none
  | a :: rest =>
    match pickLatest rest with
    | none => some a
    | some b => if b.timestamp < a.timestamp then some a else some b

/-- v2 `find_successful_solution` (`src/v2/ai_script_agent_learning.py:51-61`). -/
def find_successful_solution (rows : List Attempt) (command : String) :
    Option String :=
  (pickLatest (rows.filter (qualifiesV2 command))).map Attempt.applescript

/-- v1 `find_successful_solution` (`src/v1/ai_script_agent_learning.py:47-55`),
read over the same abstract store. -/
def find_successful_solution_v1 (rows : List Attempt) (command : String) :
    Option String :=
  (pickLatest (rows.filter (qualifiesV1 command))).map Attempt.applescript

/-- The AUTOINCREMENT id for the next insert: strictly greater than
every id already used. -/
def nextId (rows : List Attempt) : Nat :=
  rows.foldl (fun m a => max m a.id) 0 + 1

/-- v2 `save_solution` (`src/v2/ai_script_agent_learning.py:63-72`): an
`INSERT` appending one row; `now` is the clock reading supplying the
`CURRENT_TIMESTAMP` default. -/
def save_solution (rows : List Attempt) (command script : String)
    (success : Bool) (verified_success : Option Bool)
    (error_message feedback : Option String) (now : Nat) : List Attempt :=
  rows ++ [{ id := nextId rows, command := command, applescript := script,
             success := success, verified_success := verified_success,
             error_message := error_message, feedback := feedback,
             timestamp := now }]

/-! ### Generation post-processing -/

/-- The backtick character (U+0060). -/
def backtick : Char := Char.ofNat 96

/-- A markdown code fence, three backticks. -/
def fence : List Char := [backtick, backtick, backtick]

/-- The language-tagged opening fence `"```applescript"` removed first by
the whisper variant. -/
def fenceLang : List Char := fence ++ ['a', 'p', 'p', 'l', 'e', 's', 'c', 'r', 'i', 'p', 't']

/-- v2 / v1-learning `generate_applescript`
(`src/v2/ai_script_agent_learning.py:74-134`,
`src/v1/ai_script_agent_learning.py:65-116`): the prompt (fixed system
instructions, optional retrieved example, the command) is handed to the
external collaborator, modelled by `apiResponse` — `none` when the call
raises (the `except` branch returns `None`), `some raw` with the raw
message content otherwise.  The returned script is
`response.choices[0].message.content.strip()`: whitespace trimming
only. -/
def generate_applescript (apiResponse : Option String) : Option String :=
  apiResponse.map pyStrip

/-- Post-processing of the whisper variant's `generate_applescript`
(`src/v1/ai_script_agent_whisper.py:112-116`):
`content.strip().replace("```applescript", "").replace("```", "").strip()`. -/
def whisperCleanList (raw : List Char) : List Char :=
  pyStripList (pyReplaceList fence [] (pyReplaceList fenceLang [] (pyStripList raw)))

/-- whisper `generate_applescript`, on the collaborator's response. -/
def whisper_generate (apiResponse : Option String) : Option String :=
  apiResponse.map (fun raw => String.mk (whisperCleanList raw.toList))

/-! ### Execution -/

/-- The outcome of the `subprocess.run(["osascript", "-e", script], ...)`
call: either the process completed with a return code and captured
stderr, or the call raised an exception with a message. -/
inductive ExecOutcome where
  | completed (returncode : Int) (stderr : String)
  | raised (msg : String)
deriving DecidableEq, Repr

/-- The stderr signature of a missing automation permission
(`src/v2/ai_script_agent_learning.py:149`). -/
def permissionNeedle : String := "Not authorised to send Apple events"

/-- The step-by-step remediation lines printed when the permission
signature is seen (`src/v2/ai_script_agent_learning.py:150-154`). -/
def permissionRemediation : List String :=
  [ "\nPermission required! To allow this script to control applications, please:",
    "1. Open System Settings",
    "2. Go to Privacy & Security > Automation",
    "3. Find Python or Terminal in the list",
    "4. Enable the checkbox for the application you want to control" ]

/-- v2 `execute_applescript` (`src/v2/ai_script_agent_learning.py:136-157`):
returns `((success, error_message), printed)` where `printed` lists the
messages the function itself prints. -/
def execute_applescript : ExecOutcome → (Bool × Option String) × List String
  | .completed rc stderr =>
    if rc = 0 then ((true, none), [])
    else ((false, some stderr),
          if occursIn permissionNeedle.toList stderr.toList then
            permissionRemediation
          else [])
  | .raised msg => ((false, some msg), [])

/-! ### One command session (`handle_command`) -/

/-- The interactive / external inputs consumed by one
`handle_command` run: the generation collaborator's response, the
answers typed at the three `input()` prompts, the `osascript` outcome,
and the clock reading used for the inserted row's `timestamp`. -/
structure SessionInput where
  apiResponse : Option String
  approvalAnswer : String
  execOutcome : ExecOutcome
  verifyAnswer : String
  feedbackAnswer : String
  now : Nat
deriving Repr

/-- The observable outcome of one `handle_command` run: its boolean
return value, the table rows after the run, and the messages printed
(in order; `input()` prompt strings are not modelled). -/
structure SessionOutcome where
  returned : Bool
  rows : List Attempt
  printed : List String
deriving Repr

/-- Python `answer.strip().lower() in ["yes", "y"]`, the affirmative test used
for both the approval and the verification prompts
(`src/v2/ai_script_agent_learning.py:168-169,179-180`). -/
def isAffirmative (s : String) : Bool :=
  pyLower (pyStrip s) = "yes" || pyLower (pyStrip s) = "y"

/-- v2 `handle_command` (`src/v2/ai_script_agent_learning.py:159-194`) for an
agent whose table holds `rows` and whose `enable_verification` flag is
`ev`.  Python's `if not script` treats both `None` and the empty string
as falsy. -/
def handle_command (rows : List Attempt) (ev : Bool) (command : String)
    (inp : SessionInput) : SessionOutcome :=
  match generate_applescript inp.apiResponse with
  | none => { returned := false, rows := rows, printed := [] }
  | some script =>
    if script = "" then
      { returned := false, rows := rows, printed := [] }
    else if ¬ isAffirmative inp.approvalAnswer then
      { returned := false, rows := rows,
        printed := ["\nGenerated AppleScript:\n", script] }
    else
      let er := execute_applescript inp.execOutcome
      let success := er.1.1
      let error_message := er.1.2
      let verified_success : Option Bool :=
        if success && ev then some (isAffirmative inp.verifyAnswer) else none
      let feedback : Option String :=
        if success && ev && !(isAffirmative inp.verifyAnswer) then
          some (pyStrip inp.feedbackAnswer)
        else none
      let verifyPrinted : List String :=
        if success && ev then ["\nScript executed without errors."] else []
      let rows2 := save_solution rows command script success verified_success
        error_message feedback inp.now
      let finalPrinted : List String :=
        if success then
          "\nScript executed successfully!" ::
            (if verified_success = some false then
              ["But the result wasn't what you wanted.",
               "Feedback: " ++ (match feedback with
                                | some f => f
                                | none => "None")]
             else [])
        else
          ["\nExecution failed: " ++ (match error_message with
                                      | some m => m
                                      | none => "None")]
      { returned := success,
        rows := rows2,
        printed := ["\nGenerated AppleScript:\n", script] ++ er.2
          ++ verifyPrinted ++ finalPrinted }

/-- The session aborts before execution: generation failed, the
generated script was empty, or the human declined approval.  Exactly in
these cases `handle_command` returns before calling
`execute_applescript` / `save_solution`. -/
def sessionAborted (inp : SessionInput) : Prop :=
  generate_applescript inp.apiResponse = none ∨
  generate_applescript inp.apiResponse = some "" ∨
  isAffirmative inp.approvalAnswer = false

instance (inp : SessionInput) : Decidable (sessionAborted inp) := by
  unfold sessionAborted; infer_instance

/-! ### Retrieval lemmas -/

/-- The row predicate of the v2 retrieval query, as a proposition. -/
def Qualifies (command : String) (a : Attempt) : Prop :=
  a.command = command ∧ a.success = true ∧
    (a.verified_success = some true ∨ a.verified_success = none)

instance (command : String) (a : Attempt) : Decidable (Qualifies command a) := by
  unfold Qualifies; infer_instance

lemma qualifiesV2_iff {command : String} {a : Attempt} :
    qualifiesV2 command a = true ↔ Qualifies command a := by
  simp [qualifiesV2, Qualifies, Bool.and_eq_true, Bool.or_eq_true,
    decide_eq_true_eq, and_assoc]

lemma pickLatest_eq_none_iff (l : List Attempt) :
    pickLatest l = none ↔ l = [] := by
  cases l with
  | nil => simp [pickLatest]
  | cons a rest =>
    rcases hr : pickLatest rest with _ | b
    · simp [pickLatest, hr]
    · simp only [pickLatest, hr]
      constructor
      · intro hc; split at hc <;> simp at hc
      · intro hc; simp at hc

lemma pickLatest_mem_max {l : List Attempt} {b : Attempt}
    (h : pickLatest l = some b) :
    b ∈ l ∧ ∀ a ∈ l, a.timestamp ≤ b.timestamp := by
  induction l generalizing b with
  | nil => simp [pickLatest] at h
  | cons c rest ih =>
    rcases hr : pickLatest rest with _ | d
    · have hrest : rest = [] := (pickLatest_eq_none_iff rest).mp hr
      subst hrest
      simp only [pickLatest, Option.some.injEq] at h
      subst h
      refine ⟨List.mem_singleton_self _, ?_⟩
      intro a ha
      rw [List.mem_singleton] at ha
      subst ha
      exact le_refl _
    · simp only [pickLatest, hr] at h
      obtain ⟨hd, hmax⟩ := ih hr
      by_cases hts : d.timestamp < c.timestamp
      · rw [if_pos hts] at h
        simp only [Option.some.injEq] at h
        subst h
        refine ⟨List.mem_cons_self _ _, ?_⟩
        intro a ha
        rcases List.mem_cons.mp ha with rfl | ha
        · exact le_refl _
        · exact le_trans (hmax a ha) (le_of_lt hts)
      · rw [if_neg hts] at h
        simp only [Option.some.injEq] at h
        subst h
        refine ⟨List.mem_cons_of_mem _ hd, ?_⟩
        intro a ha
        rcases List.mem_cons.mp ha with rfl | ha
        · exact le_of_not_lt hts
        · exact hmax a ha

lemma pickLatest_pairwise_getLast {l : List Attempt}
    (h : l.Pairwise (fun a b => a.timestamp < b.timestamp)) :
    pickLatest l = l.getLast? := by
  induction l with
  | nil => simp [pickLatest]
  | cons a rest ih =>
    rcases List.pairwise_cons.mp h with ⟨ha, hrest⟩
    rcases hr : pickLatest rest with _ | b
    · have hnil : rest = [] := (pickLatest_eq_none_iff rest).mp hr
      subst hnil
      rfl
    · have hb : b ∈ rest := (pickLatest_mem_max hr).1
      have hab : a.timestamp < b.timestamp := ha b hb
      simp only [pickLatest, hr]
      rw [if_neg (not_lt.mpr (le_of_lt hab))]
      rw [ih hrest] at hr
      cases rest with
      | nil => simp at hb
      | cons c t => rw [List.getLast?_cons_cons]; exact hr.symm

/-! ### Claim theorems: the attempt store -/

/-- C1: v2 `find_successful_solution` returns `none` exactly when no
attempt has the queried command (exact, case-sensitive match),
`success = true` and `verified_success ∈ {true, NULL}`; otherwise it
returns the script of such an attempt whose `timestamp` is greatest
among all qualifying attempts (in particular a `verified_success = false`
attempt is never returned). -/
theorem find_successful_solution_spec (rows : List Attempt) (command : String) :
    (find_successful_solution rows command = none ↔
      ∀ a ∈ rows, ¬ Qualifies command a) ∧
    (∀ s, find_successful_solution rows command = some s →
      ∃ a ∈ rows, Qualifies command a ∧ a.applescript = s ∧
        ∀ b ∈ rows, Qualifies command b → b.timestamp ≤ a.timestamp) := by
  constructor
  · unfold find_successful_solution
    rw [Option.map_eq_none', pickLatest_eq_none_iff, List.filter_eq_nil_iff]
    simp only [qualifiesV2_iff]
  · intro s hs
    unfold find_successful_solution at hs
    rw [Option.map_eq_some'] at hs
    obtain ⟨a, ha, has⟩ := hs
    obtain ⟨hmem, hmax⟩ := pickLatest_mem_max ha
    rw [List.mem_filter] at hmem
    exact ⟨a, hmem.1, qualifiesV2_iff.mp hmem.2, has, fun b hb hq =>
      hmax b (List.mem_filter.mpr ⟨hb, qualifiesV2_iff.mpr hq⟩)⟩

/-- A sample qualifying attempt used to instantiate theorems with
hypotheses. -/
def sampleAttempt : Attempt :=
  { id := 1, command := "open Safari", applescript := "tell app",
    success := true, verified_success := none, error_message := none,
    feedback := none, timestamp := 5 }

/-- Witness for C1 at a one-row store. -/
theorem find_successful_solution_spec_witness :
    ∃ a ∈ [sampleAttempt], Qualifies "open Safari" a ∧
      a.applescript = "tell app" ∧
      ∀ b ∈ [sampleAttempt], Qualifies "open Safari" b →
        b.timestamp ≤ a.timestamp :=
  (find_successful_solution_spec [sampleAttempt] "open Safari").2 "tell app"
    (by decide)

/-- C2: when the rows' `timestamp` values strictly increase in insertion
order (id order and `created_at` recency order agree), v2
`find_successful_solution` returns the script of the *last inserted*
qualifying attempt — never an older qualifying one. -/
theorem find_returns_latest_appended (rows : List Attempt) (command : String)
    (hmono : rows.Pairwise (fun a b => a.timestamp < b.timestamp)) :
    find_successful_solution rows command =
      ((rows.filter (qualifiesV2 command)).getLast?).map Attempt.applescript := by
  unfold find_successful_solution
  rw [pickLatest_pairwise_getLast (List.Pairwise.sublist (List.filter_sublist _) hmono)]

/-- An older qualifying attempt for the same command as `sampleAttempt2`. -/
def sampleAttempt1 : Attempt :=
  { id := 1, command := "open Safari", applescript := "older script",
    success := true, verified_success := none, error_message := none,
    feedback := none, timestamp := 1 }

/-- A newer qualifying attempt for the same command as `sampleAttempt1`. -/
def sampleAttempt2 : Attempt :=
  { id := 2, command := "open Safari", applescript := "newer script",
    success := true, verified_success := some true, error_message := none,
    feedback := none, timestamp := 2 }

/-- Witness for C2: with two qualifying attempts appended in order the
newer script is retrieved. -/
theorem find_returns_latest_appended_witness :
    find_successful_solution [sampleAttempt1, sampleAttempt2] "open Safari" =
      ((([sampleAttempt1, sampleAttempt2].filter
          (qualifiesV2 "open Safari")).getLast?).map Attempt.applescript) ∧
    find_successful_solution [sampleAttempt1, sampleAttempt2] "open Safari" =
      some "newer script" :=
  ⟨find_returns_latest_appended [sampleAttempt1, sampleAttempt2] "open Safari"
    (by decide), by decide⟩

/-- C8: `setup_database` (`CREATE TABLE IF NOT EXISTS`) is idempotent —
on an already-initialized store it is a no-op, leaving every existing
row present and unchanged. -/
theorem setup_database_idempotent (db : Option (List Attempt)) :
    setup_database (setup_database db) = setup_database db ∧
    ∀ rows : List Attempt, setup_database (some rows) = some rows := by
  refine ⟨?_, fun rows => rfl⟩
  cases db <;> rfl

/-- C10: on any store in which no attempt is marked `verified_success =
false`, the v1 retrieval (which filters only on success) and the v2
retrieval (which additionally excludes verified-failed attempts) agree
for every command. -/
theorem v1_v2_retrieval_agree (rows : List Attempt)
    (hnf : ∀ a ∈ rows, a.verified_success ≠ some false) (command : String) :
    find_successful_solution_v1 rows command =
      find_successful_solution rows command := by
  unfold find_successful_solution_v1 find_successful_solution
  have h : rows.filter (qualifiesV1 command) = rows.filter (qualifiesV2 command) := by
    apply List.filter_congr
    intro a ha
    cases hv : a.verified_success with
    | none => simp [qualifiesV1, qualifiesV2, hv]
    | some b =>
      cases b with
      | false => exact absurd hv (hnf a ha)
      | true => simp [qualifiesV1, qualifiesV2, hv]
  rw [h]

/-- Witness for C10: a store holding one unverified success and one
verified success, queried for their command. -/
theorem v1_v2_retrieval_agree_witness :
    find_successful_solution_v1 [sampleAttempt1, sampleAttempt2] "open Safari" =
      find_successful_solution [sampleAttempt1, sampleAttempt2] "open Safari" :=
  v1_v2_retrieval_agree [sampleAttempt1, sampleAttempt2] (by decide) "open Safari"

/-! ### Session lemmas -/

/-- The record appended by a session that reached execution. -/
def recordedAttempt (rows : List Attempt) (ev : Bool) (command script : String)
    (inp : SessionInput) : Attempt :=
  { id := nextId rows, command := command, applescript := script,
    success := (execute_applescript inp.execOutcome).1.1,
    verified_success :=
      if (execute_applescript inp.execOutcome).1.1 && ev then
        some (isAffirmative inp.verifyAnswer)
      else none,
    error_message := (execute_applescript inp.execOutcome).1.2,
    feedback :=
      if (execute_applescript inp.execOutcome).1.1 && ev &&
          !(isAffirmative inp.verifyAnswer) then
        some (pyStrip inp.feedbackAnswer)
      else none,
    timestamp := inp.now }

lemma handle_command_aborted {rows : List Attempt} {ev : Bool} {command : String}
    {inp : SessionInput} (h : sessionAborted inp) :
    (handle_command rows ev command inp).returned = false ∧
    (handle_command rows ev command inp).rows = rows := by
  rcases hg : generate_applescript inp.apiResponse with _ | script
  · simp [handle_command, hg]
  · by_cases hs : script = ""
    · subst hs; simp [handle_command, hg]
    · rcases h with h1 | h2 | h3
      · rw [hg] at h1; exact absurd h1 (by simp)
      · rw [hg] at h2; simp only [Option.some.injEq] at h2; exact absurd h2 hs
      · simp [handle_command, hg, hs, h3]

lemma handle_command_executed {rows : List Attempt} {ev : Bool} {command script : String}
    {inp : SessionInput} (hg : generate_applescript inp.apiResponse = some script)
    (hs : script ≠ "") (happ : isAffirmative inp.approvalAnswer = true) :
    (handle_command rows ev command inp).rows =
      rows ++ [recordedAttempt rows ev command script inp] ∧
    (handle_command rows ev command inp).printed =
      ["\nGenerated AppleScript:\n", script]
        ++ (execute_applescript inp.execOutcome).2
        ++ (if (execute_applescript inp.execOutcome).1.1 && ev then
              ["\nScript executed without errors."] else [])
        ++ (if (execute_applescript inp.execOutcome).1.1 then
              "\nScript executed successfully!" ::
                (if (if (execute_applescript inp.execOutcome).1.1 && ev then
                       some (isAffirmative inp.verifyAnswer)
                     else none) = some false then
                  ["But the result wasn't what you wanted.",
                   "Feedback: " ++ pyStrip inp.feedbackAnswer]
                 else [])
            else
              ["\nExecution failed: " ++
                (match (execute_applescript inp.execOutcome).1.2 with
                 | some m => m
                 | none => "None")]) := by
  constructor
  · simp only [handle_command, hg, if_neg hs, happ, not_true_eq_false,
      if_false, save_solution, recordedAttempt]
  · simp only [handle_command, hg, if_neg hs, happ, not_true_eq_false,
      if_false]
    by_cases hsucc : (execute_applescript inp.execOutcome).1.1
    · by_cases hev : ev
      · by_cases hver : isAffirmative inp.verifyAnswer <;>
          simp [hsucc, hev, hver]
      · simp [hsucc, hev]
    · simp only [Bool.not_eq_true] at hsucc
      simp [hsucc]

lemma handle_command_recorded {rows : List Attempt} {ev : Bool} {command : String}
    {inp : SessionInput} {a : Attempt}
    (h : (handle_command rows ev command inp).rows = rows ++ [a]) :
    ∃ script, generate_applescript inp.apiResponse = some script ∧ script ≠ "" ∧
      isAffirmative inp.approvalAnswer = true ∧
      a = recordedAttempt rows ev command script inp := by
  by_cases hab : sessionAborted inp
  · rw [(handle_command_aborted hab).2] at h
    have := congrArg List.length h
    simp at this
  · unfold sessionAborted at hab
    push_neg at hab
    obtain ⟨h1, h2, h3⟩ := hab
    rcases hg : generate_applescript inp.apiResponse with _ | script
    · exact absurd hg h1
    · have hs : script ≠ "" := by
        intro hc; subst hc; exact h2 hg
      have happ : isAffirmative inp.approvalAnswer = true := by
        cases hb : isAffirmative inp.approvalAnswer
        · exact absurd hb h3
        · rfl
      have hrows :=
        (@handle_command_executed rows ev command script inp hg hs happ).1
      rw [hrows] at h
      have : recordedAttempt rows ev command script inp = a := by
        have h' := List.append_cancel_left h
        simpa using h'
      exact ⟨script, rfl, hs, happ, this.symm⟩


lemma execute_error_message_iff (eo : ExecOutcome) :
    ((execute_applescript eo).1.2 ≠ none ↔ (execute_applescript eo).1.1 = false) := by
  cases eo with
  | completed rc stderr =>
    by_cases hrc : rc = 0 <;> simp [execute_applescript, hrc]
  | raised msg => simp [execute_applescript]

/-! ### Claim theorems: one command session -/

/-- C4: if generation fails or yields an empty script, or the human
declines approval, `handle_command` returns `False` and writes nothing;
conversely the store only changes when the session got past those gates,
i.e. when execution was actually invoked. -/
theorem handle_command_abort_no_record (rows : List Attempt) (ev : Bool)
    (command : String) (inp : SessionInput) :
    (sessionAborted inp →
      (handle_command rows ev command inp).returned = false ∧
      (handle_command rows ev command inp).rows = rows) ∧
    ((handle_command rows ev command inp).rows ≠ rows → ¬ sessionAborted inp) := by
  refine ⟨fun h => handle_command_aborted h, fun hne hab => ?_⟩
  exact hne (handle_command_aborted hab).2

/-- A session input in which the human declines to run the script. -/
def declinedInput : SessionInput :=
  { apiResponse := some "beep", approvalAnswer := "no",
    execOutcome := .completed 0 "", verifyAnswer := "",
    feedbackAnswer := "", now := 0 }

/-- Witness for C4: a declined session leaves an empty store empty and
returns `False`. -/
theorem handle_command_abort_no_record_witness :
    (handle_command [] false "open Safari" declinedInput).returned = false ∧
    (handle_command [] false "open Safari" declinedInput).rows = [] :=
  (handle_command_abort_no_record [] false "open Safari" declinedInput).1
    (by decide)

/-- C5: a recorded attempt has `verified_success = NULL` whenever
execution failed or verification was disabled; it is `true` only after
an affirmative answer to the verification prompt, and `false` only after
a non-affirmative answer, in which case the stripped free-text feedback
is stored with the attempt. -/
theorem verification_gate_spec (rows : List Attempt) (ev : Bool)
    (command : String) (inp : SessionInput) (a : Attempt)
    (h : (handle_command rows ev command inp).rows = rows ++ [a]) :
    (((execute_applescript inp.execOutcome).1.1 = false ∨ ev = false) →
      a.verified_success = none) ∧
    (a.verified_success = some true →
      (execute_applescript inp.execOutcome).1.1 = true ∧ ev = true ∧
        isAffirmative inp.verifyAnswer = true) ∧
    (a.verified_success = some false →
      (execute_applescript inp.execOutcome).1.1 = true ∧ ev = true ∧
        isAffirmative inp.verifyAnswer = false ∧
        a.feedback = some (pyStrip inp.feedbackAnswer)) := by
  obtain ⟨script, hg, hs, happ, rfl⟩ := handle_command_recorded h
  by_cases hsucc : (execute_applescript inp.execOutcome).1.1 <;>
    by_cases hev : ev <;>
      by_cases hver : isAffirmative inp.verifyAnswer <;>
        simp [recordedAttempt, hsucc, hev, hver]

/-- An executed, verification-enabled session whose verification prompt
receives the empty answer and feedback `"wrong window"`. -/
def verifiedNoInput : SessionInput :=
  { apiResponse := some "beep", approvalAnswer := "yes",
    execOutcome := .completed 0 "", verifyAnswer := "",
    feedbackAnswer := "wrong window", now := 7 }

/-- Witness for C5 on a concrete recorded attempt: the empty
verification answer yields a verified-failed record with its feedback. -/
theorem verification_gate_spec_witness :
    (execute_applescript verifiedNoInput.execOutcome).1.1 = true ∧
      true = true ∧ isAffirmative verifiedNoInput.verifyAnswer = false ∧
      (recordedAttempt [] true "open Safari" "beep" verifiedNoInput).feedback
        = some (pyStrip verifiedNoInput.feedbackAnswer) :=
  (verification_gate_spec [] true "open Safari" verifiedNoInput
    (recordedAttempt [] true "open Safari" "beep" verifiedNoInput)
    (by decide)).2.2 (by decide)

/-- C6: every attempt recorded by a session satisfies the two field
invariants — `error_message` is set iff `success = false`, and
`feedback` is set only when `verified_success = false`. -/
theorem recorded_field_invariants (rows : List Attempt) (ev : Bool)
    (command : String) (inp : SessionInput) (a : Attempt)
    (h : (handle_command rows ev command inp).rows = rows ++ [a]) :
    (a.error_message ≠ none ↔ a.success = false) ∧
    (a.feedback ≠ none → a.verified_success = some false) := by
  obtain ⟨script, hg, hs, happ, rfl⟩ := handle_command_recorded h
  constructor
  · simpa [recordedAttempt] using execute_error_message_iff inp.execOutcome
  · by_cases hsucc : (execute_applescript inp.execOutcome).1.1 <;>
      by_cases hev : ev <;>
        by_cases hver : isAffirmative inp.verifyAnswer <;>
          simp [recordedAttempt, hsucc, hev, hver]

/-- Witness for C6 on a concrete recorded attempt. -/
theorem recorded_field_invariants_witness :
    ((recordedAttempt [] true "open Safari" "beep" verifiedNoInput).error_message
        ≠ none ↔
      (recordedAttempt [] true "open Safari" "beep" verifiedNoInput).success
        = false) ∧
    ((recordedAttempt [] true "open Safari" "beep" verifiedNoInput).feedback
        ≠ none →
      (recordedAttempt [] true "open Safari" "beep" verifiedNoInput).verified_success
        = some false) :=
  recorded_field_invariants [] true "open Safari" verifiedNoInput
    (recordedAttempt [] true "open Safari" "beep" verifiedNoInput) (by decide)

/-- C7: when execution completes with a non-zero return code and a
stderr containing the permission signature, the session records an
attempt with `success = false`, prints every line of the step-by-step
permission remediation message, and prints the generic failure
message. -/
theorem permission_error_reported (rows : List Attempt) (ev : Bool)
    (command : String) (inp : SessionInput) (rc : Int) (stderr : String)
    (hexec : inp.execOutcome = .completed rc stderr) (hrc : rc ≠ 0)
    (hperm : occursIn permissionNeedle.toList stderr.toList = true)
    (hrun : ¬ sessionAborted inp) :
    (∃ a, (handle_command rows ev command inp).rows = rows ++ [a] ∧
      a.success = false) ∧
    (∀ m ∈ permissionRemediation,
      m ∈ (handle_command rows ev command inp).printed) ∧
    ("\nExecution failed: " ++ stderr)
      ∈ (handle_command rows ev command inp).printed := by
  unfold sessionAborted at hrun
  push_neg at hrun
  obtain ⟨h1, h2, h3⟩ := hrun
  rcases hg : generate_applescript inp.apiResponse with _ | script
  · exact absurd hg h1
  · have hs : script ≠ "" := by
      intro hc; subst hc; exact h2 hg
    have happ : isAffirmative inp.approvalAnswer = true := by
      cases hb : isAffirmative inp.approvalAnswer
      · exact absurd hb h3
      · rfl
    have hx : execute_applescript inp.execOutcome =
        ((false, some stderr), permissionRemediation) := by
      rw [hexec]
      have hperm' : occursIn permissionNeedle.data stderr.data = true := hperm
      simp [execute_applescript, hrc, hperm']
    obtain ⟨hrows, hprinted⟩ :=
      @handle_command_executed rows ev command script inp hg hs happ
    refine ⟨⟨recordedAttempt rows ev command script inp, hrows, ?_⟩, ?_, ?_⟩
    · simp [recordedAttempt, hx]
    · intro m hm
      rw [hprinted, hx]
      simp only [List.mem_append]
      exact Or.inl (Or.inl (Or.inr hm))
    · rw [hprinted, hx]
      simp

/-- A session input hitting the automation-permission failure. -/
def permissionInput : SessionInput :=
  { apiResponse := some "beep", approvalAnswer := "y",
    execOutcome := .completed 1 "Not authorised to send Apple events",
    verifyAnswer := "", feedbackAnswer := "", now := 3 }

/-- Witness for C7 at a concrete permission-denied execution. -/
theorem permission_error_reported_witness :
    (∃ a, (handle_command [] false "open Safari" permissionInput).rows =
        [] ++ [a] ∧ a.success = false) ∧
    (∀ m ∈ permissionRemediation,
      m ∈ (handle_command [] false "open Safari" permissionInput).printed) ∧
    ("\nExecution failed: " ++ "Not authorised to send Apple events")
      ∈ (handle_command [] false "open Safari" permissionInput).printed :=
  permission_error_reported [] false "open Safari" permissionInput 1
    "Not authorised to send Apple events" rfl (by decide) (by decide)
    (by decide)

/-- C9: in a verification-enabled session whose execution succeeded, the
recorded `verified_success` is exactly the affirmativity of the
verification answer — never NULL — and any answer whose stripped
lowercase form is not `"yes"`/`"y"` records `verified_success = false`
together with the collected feedback. -/
theorem verification_prompt_decides (rows : List Attempt) (command : String)
    (inp : SessionInput) (a : Attempt)
    (h : (handle_command rows true command inp).rows = rows ++ [a])
    (hsucc : (execute_applescript inp.execOutcome).1.1 = true) :
    a.verified_success = some (isAffirmative inp.verifyAnswer) ∧
    (isAffirmative inp.verifyAnswer = false →
      a.verified_success = some false ∧
      a.feedback = some (pyStrip inp.feedbackAnswer)) := by
  obtain ⟨script, hg, hs, happ, rfl⟩ := handle_command_recorded h
  by_cases hver : isAffirmative inp.verifyAnswer <;>
    simp [recordedAttempt, hsucc, hver]

/-- Witness for C9: the empty verification answer records
`verified_success = false` with the collected feedback. -/
theorem verification_prompt_decides_witness :
    (recordedAttempt [] true "open Safari" "beep" verifiedNoInput).verified_success
        = some (isAffirmative verifiedNoInput.verifyAnswer) ∧
    (isAffirmative verifiedNoInput.verifyAnswer = false →
      (recordedAttempt [] true "open Safari" "beep" verifiedNoInput).verified_success
          = some false ∧
      (recordedAttempt [] true "open Safari" "beep" verifiedNoInput).feedback
          = some (pyStrip verifiedNoInput.feedbackAnswer)) :=
  verification_prompt_decides [] "open Safari" verifiedNoInput
    (recordedAttempt [] true "open Safari" "beep" verifiedNoInput)
    (by decide) (by decide)

/-! ### String lemmas for the generation post-processing -/

lemma headMatches_iff {pat s : List Char} :
    headMatches pat s = true ↔ ∃ t, s = pat ++ t := by
  induction pat generalizing s with
  | nil => simp [headMatches]
  | cons p ps ih =>
    cases s with
    | nil => simp [headMatches]
    | cons c cs =>
      simp only [headMatches, Bool.and_eq_true, decide_eq_true_eq, ih,
        List.cons_append]
      constructor
      · rintro ⟨rfl, t, rfl⟩
        exact ⟨t, rfl⟩
      · rintro ⟨t, ht⟩
        injection ht with h1 h2
        exact ⟨h1.symm, t, h2⟩

lemma occursIn_iff {pat s : List Char} :
    occursIn pat s = true ↔ ∃ u v, s = u ++ pat ++ v := by
  induction s with
  | nil =>
    rw [occursIn, headMatches_iff]
    constructor
    · rintro ⟨t, ht⟩
      exact ⟨[], t, by simpa using ht⟩
    · rintro ⟨u, v, huv⟩
      rcases List.append_eq_nil.mp huv.symm with ⟨h1, rfl⟩
      rcases List.append_eq_nil.mp h1 with ⟨rfl, rfl⟩
      exact ⟨[], rfl⟩
  | cons c rest ih =>
    rw [occursIn, Bool.or_eq_true, headMatches_iff, ih]
    constructor
    · rintro (⟨t, ht⟩ | ⟨u, v, huv⟩)
      · exact ⟨[], t, by simpa using ht⟩
      · exact ⟨c :: u, v, by rw [huv]; simp⟩
    · rintro ⟨u, v, huv⟩
      cases u with
      | nil => exact Or.inl ⟨v, by simpa using huv⟩
      | cons x xs =>
        rw [List.cons_append, List.cons_append] at huv
        injection huv with h1 h2
        exact Or.inr ⟨xs, v, h2⟩

lemma occursIn_of_middle {pat t : List Char} (u v : List Char)
    (h : occursIn pat t = true) : occursIn pat (u ++ t ++ v) = true := by
  rw [occursIn_iff] at h ⊢
  obtain ⟨a, b, rfl⟩ := h
  exact ⟨u ++ a, b ++ v, by simp⟩

lemma occursIn_eq_false_of_decomp {pat s t u v : List Char}
    (hs : s = u ++ t ++ v) (h : occursIn pat s = false) :
    occursIn pat t = false := by
  cases ho : occursIn pat t with
  | false => rfl
  | true =>
    have := occursIn_of_middle u v ho
    rw [← hs, h] at this
    exact absurd this (by simp)

lemma pyStripList_decomp (l : List Char) :
    ∃ pre post, l = pre ++ pyStripList l ++ post ∧
      (∀ c ∈ pre, isPyWs c = true) ∧ (∀ c ∈ post, isPyWs c = true) := by
  refine ⟨l.takeWhile isPyWs,
    ((l.dropWhile isPyWs).reverse.takeWhile isPyWs).reverse, ?_, ?_, ?_⟩
  · unfold pyStripList
    conv_lhs => rw [← List.takeWhile_append_dropWhile isPyWs l]
    rw [List.append_assoc]
    congr 1
    conv_lhs => rw [← List.reverse_reverse (List.dropWhile isPyWs l),
      ← List.takeWhile_append_dropWhile isPyWs
        (List.dropWhile isPyWs l).reverse]
    rw [List.reverse_append]
  · intro c hc
    exact List.mem_takeWhile_imp hc
  · intro c hc
    rw [List.mem_reverse] at hc
    exact List.mem_takeWhile_imp hc

lemma head?_dropWhile_false (p : Char → Bool) (l : List Char) :
    ∀ c, (l.dropWhile p).head? = some c → p c = false := by
  intro c hc
  have h := List.head?_dropWhile_not p l
  rw [hc] at h
  exact h

lemma pyStripList_getLast?_not_ws (l : List Char) :
    ∀ c, (pyStripList l).getLast? = some c → isPyWs c = false := by
  intro c hc
  unfold pyStripList at hc
  rw [List.getLast?_reverse] at hc
  exact head?_dropWhile_false isPyWs _ c hc

lemma pyStripList_head?_not_ws (l : List Char) :
    ∀ c, (pyStripList l).head? = some c → isPyWs c = false := by
  intro c hc
  unfold pyStripList at hc
  rw [List.head?_reverse] at hc
  -- `hc : (((l.dropWhile isPyWs).reverse).dropWhile isPyWs).getLast? = some c`
  set r := (l.dropWhile isPyWs).reverse with hr
  obtain ⟨t, ht⟩ := List.dropWhile_suffix (l := r) isPyWs
  have hlast : r.getLast? = some c := by
    rw [← ht, List.getLast?_append, hc]
    rfl
  rw [hr, List.getLast?_reverse] at hlast
  exact head?_dropWhile_false isPyWs l c hlast

/-- Length of the run of backticks at the head of the list. -/
def leadRun : List Char → Nat
  | [] => 0
  | c :: rest => if c = backtick then leadRun rest + 1 else 0

lemma headMatches_fence_iff (s : List Char) :
    headMatches fence s = true ↔ 3 ≤ leadRun s := by
  cases s with
  | nil => simp [headMatches, fence, leadRun]
  | cons c s1 =>
    cases s1 with
    | nil =>
      by_cases h1 : c = backtick <;>
        simp [headMatches, fence, leadRun, h1, eq_comm]
    | cons d s2 =>
      cases s2 with
      | nil =>
        by_cases h1 : c = backtick <;> by_cases h2 : d = backtick <;>
          simp [headMatches, fence, leadRun, h1, h2, eq_comm]
      | cons e t =>
        by_cases h1 : c = backtick <;> by_cases h2 : d = backtick <;>
          by_cases h3 : e = backtick <;>
            simp [headMatches, fence, leadRun, h1, h2, h3, eq_comm] <;>
              omega

lemma leadRun_cons_backtick (rest : List Char) :
    leadRun (backtick :: rest) = leadRun rest + 1 := by
  simp [leadRun]

lemma leadRun_cons_of_ne {c : Char} (rest : List Char) (h : ¬ c = backtick) :
    leadRun (c :: rest) = 0 := by
  simp [leadRun, h]

/-- Replacing every occurrence of three backticks by the empty string
leaves no occurrence of three backticks: each maximal backtick run
shrinks modulo three, so all runs in the output have length at most
two. -/
lemma pyReplace_fence_free :
    ∀ n s, List.length s ≤ n →
      occursIn fence (pyReplaceList fence [] s) = false ∧
      leadRun (pyReplaceList fence [] s) ≤ leadRun s ∧
      leadRun (pyReplaceList fence [] s) ≤ 2 := by
  intro n
  induction n with
  | zero =>
    intro s hs
    have hnil : s = [] := List.length_eq_zero.mp (Nat.le_zero.mp hs)
    subst hnil
    simp [pyReplaceList, occursIn, headMatches, fence, leadRun]
  | succ n ih =>
    intro s hs
    cases s with
    | nil => simp [pyReplaceList, occursIn, headMatches, fence, leadRun]
    | cons c rest =>
      cases hm : headMatches fence (c :: rest) with
      | true =>
        obtain ⟨t, ht⟩ := headMatches_iff.mp hm
        have hred : pyReplaceList fence [] (c :: rest) =
            pyReplaceList fence [] t := by
          rw [pyReplaceList, dif_pos ⟨by simp [fence], hm⟩, ht]
          have : fence.length = 3 := by simp [fence]
          rw [show ((fence ++ t).drop fence.length = t) from
            List.drop_left fence t]
          simp
        have hlt : t.length ≤ n := by
          have hlen := congrArg List.length ht
          simp only [List.length_cons, List.length_append] at hlen
          have : fence.length = 3 := by simp [fence]
          rw [List.length_cons] at hs
          omega
        obtain ⟨h1, h2, h3⟩ := ih t hlt
        rw [hred]
        have hrun : 3 ≤ leadRun (c :: rest) := by
          rw [ht]
          show 3 ≤ leadRun (backtick :: backtick :: backtick :: t)
          rw [leadRun_cons_backtick, leadRun_cons_backtick,
            leadRun_cons_backtick]
          omega
        exact ⟨h1, by omega, h3⟩
      | false =>
        have hred : pyReplaceList fence [] (c :: rest) =
            c :: pyReplaceList fence [] rest := by
          rw [pyReplaceList, dif_neg]
          intro hcon
          rw [hm] at hcon
          exact absurd hcon.2 (by simp)
        have hrlen : rest.length ≤ n := by
          rw [List.length_cons] at hs
          omega
        obtain ⟨h1, h2, h3⟩ := ih rest hrlen
        rw [hred]
        by_cases hc : c = backtick
        · subst hc
          have hlr : leadRun rest ≤ 1 := by
            by_contra hgt
            push_neg at hgt
            have h3' : 3 ≤ leadRun (backtick :: rest) := by
              rw [leadRun_cons_backtick]; omega
            rw [← headMatches_fence_iff, hm] at h3'
            exact absurd h3' (by simp)
          refine ⟨?_, ?_, ?_⟩
          · rw [occursIn, Bool.or_eq_false_iff]
            refine ⟨?_, h1⟩
            cases hhm : headMatches fence
                (backtick :: pyReplaceList fence [] rest) with
            | false => rfl
            | true =>
              rw [headMatches_fence_iff, leadRun_cons_backtick] at hhm
              omega
          · rw [leadRun_cons_backtick, leadRun_cons_backtick]
            omega
          · rw [leadRun_cons_backtick]
            omega
        · refine ⟨?_, ?_, ?_⟩
          · rw [occursIn, Bool.or_eq_false_iff]
            refine ⟨?_, h1⟩
            cases hhm : headMatches fence
                (c :: pyReplaceList fence [] rest) with
            | false => rfl
            | true =>
              rw [headMatches_fence_iff, leadRun_cons_of_ne _ hc] at hhm
              omega
          · rw [leadRun_cons_of_ne _ hc]
            omega
          · rw [leadRun_cons_of_ne _ hc]
            omega

/-- The whisper variant's post-processed script never contains a
three-backtick code fence. -/
lemma whisperCleanList_fence_free (raw : List Char) :
    occursIn fence (whisperCleanList raw) = false := by
  unfold whisperCleanList
  set inner := pyReplaceList fenceLang [] (pyStripList raw) with hinner
  have h1 : occursIn fence (pyReplaceList fence [] inner) = false :=
    (pyReplace_fence_free inner.length inner le_rfl).1
  obtain ⟨pre, post, hdec, _, _⟩ :=
    pyStripList_decomp (pyReplaceList fence [] inner)
  exact occursIn_eq_false_of_decomp hdec h1

/-! ### Claim theorems: generation post-processing -/

/-- C3 counterexample: for the raw collaborator response
`"```applescript\nbeep\n```"` the learning variants' `generate_applescript`
returns the text unchanged — the surrounding markdown code-fence markers
are *not* removed (a fence still occurs in the returned script). -/
theorem generate_applescript_keeps_fencing :
    generate_applescript (some "```applescript\nbeep\n```") =
      some "```applescript\nbeep\n```" ∧
    occursIn fence ("```applescript\nbeep\n```".toList) = true := by
  constructor
  · decide
  · decide

/-- C3 (amended): the learning variants' `generate_applescript` only
trims surrounding whitespace from the raw response (the returned script
is the raw text minus leading and trailing whitespace, and fencing
markers are untouched), while the whisper variant's post-processing
additionally removes markdown code-fence markers — its output never
contains three consecutive backticks — and trims surrounding
whitespace. -/
theorem generate_postprocessing_spec (raw : List Char) :
    generate_applescript (some (String.mk raw)) =
      some (String.mk (pyStripList raw)) ∧
    (∃ pre post, raw = pre ++ pyStripList raw ++ post ∧
      (∀ c ∈ pre, isPyWs c = true) ∧ (∀ c ∈ post, isPyWs c = true)) ∧
    (∀ c, (pyStripList raw).head? = some c → isPyWs c = false) ∧
    (∀ c, (pyStripList raw).getLast? = some c → isPyWs c = false) ∧
    whisper_generate (some (String.mk raw)) =
      some (String.mk (whisperCleanList raw)) ∧
    occursIn fence (whisperCleanList raw) = false := by
  refine ⟨rfl, pyStripList_decomp raw, pyStripList_head?_not_ws raw,
    pyStripList_getLast?_not_ws raw, rfl, whisperCleanList_fence_free raw⟩

/-- Witness for the amended C3 at the raw response `" beep\n"`. -/
theorem generate_postprocessing_spec_witness :
    isPyWs 'b' = false ∧ isPyWs 'p' = false ∧
    occursIn fence (whisperCleanList (" beep\n".toList)) = false :=
  ⟨(generate_postprocessing_spec (" beep\n".toList)).2.2.1 'b' (by decide),
   (generate_postprocessing_spec (" beep\n".toList)).2.2.2.1 'p' (by decide),
   (generate_postprocessing_spec (" beep\n".toList)).2.2.2.2.2⟩

end ScriptAgent
